import Mathlib

/-!
Verification of the react-scan WebGL render-visualization overlay engine
(`src/core/web/outline.ts`).

The development shallowly embeds the engine's data model and operations:

* DOM rectangles carry integer coordinates and natural-number dimensions
  (`getBoundingClientRect` never yields negative width/height).
* Times (`performance.now()` values) are integers; the geometry cache TTL
  comparison `cached.timestamp > performance.now() - 128` is kept verbatim.
* `Math.round` on the color interpolation is modelled on rationals as
  `⌊q + 1/2⌋` (round half toward positive infinity), matching JS semantics
  for the nonnegative values that occur here.
* JavaScript `Map`s are modelled as insertion-ordered association lists:
  lookup finds the first (unique) matching key, `set` overwrites in place
  or appends.
* The helpers `isOutlineUnstable` and `getLabelText` are imported by
  `outline.ts` from modules that are not part of the analysed sources; the
  spec describes them only as pure classification/labelling functions of
  the render list, so the engine environment carries them as opaque
  function parameters.
* The DOM/WebGL environment (computed styles, bounding rectangles, viewport
  size, text metrics) is a read-only function parameter `Env`.
* Promises: `paintOutlineGL` returns a promise whose `resolve` closure is
  (for a fresh region) stored on the new `ActiveOutline`.  Each promise is
  identified by a numeric id; invoking a stored resolve callback would
  append its id to `firedResolves`.  A promise has settled exactly when its
  id is in `firedResolves`.
-/

namespace ReactScan

/-- A render event: `{componentName-ish payload, count, time}` (the fields of
`Render` that `outline.ts` reads: `count` and `time` for the toolbar stats,
and the whole list is passed to `getLabelText`/`isOutlineUnstable`). -/
structure Render where
  name : String
  count : Nat
  time : Nat
deriving Repr, DecidableEq

/-- The `DOMRect` produced by `getBoundingClientRect`: origin may be anywhere,
width/height are nonnegative. -/
structure DOMRect where
  x : Int
  y : Int
  width : Nat
  height : Nat
deriving Repr, DecidableEq

def DOMRect.top (r : DOMRect) : Int := r.y
def DOMRect.left (r : DOMRect) : Int := r.x
def DOMRect.bottom (r : DOMRect) : Int := r.y + r.height
def DOMRect.right (r : DOMRect) : Int := r.x + r.width

/-- A `PendingOutline`: rect, DOM node handle (element identity as a number),
and the accumulated render list. -/
structure PendingOutline where
  rect : DOMRect
  domNode : Nat
  renders : List Render
deriving Repr, DecidableEq

/-- The geometry key `getOutlineKey`: the template string
`` `${rect.top}-${rect.left}-${rect.width}-${rect.height}` ``. -/
def getOutlineKey (outline : PendingOutline) : String :=
  toString outline.rect.top ++ "-" ++ toString outline.rect.left ++ "-" ++
    toString outline.rect.width ++ "-" ++ toString outline.rect.height

/-- RGB color with integer channels (the result of `Math.round`). -/
structure Color where
  r : Int
  g : Int
  b : Int
deriving Repr, DecidableEq

def START_COLOR : Color := { r := 115, g := 97, b := 230 }
def END_COLOR : Color := { r := 185, g := 49, b := 115 }

/-- JavaScript `Math.round`: round half toward positive infinity. -/
def jsRound (q : ℚ) : Int := Int.floor (q + 1/2)

/-- The intensity ratio `t = Math.min(updateCount / maxRenders, 1)` of
`paintOutlineGL` (exact rational arithmetic; faithful to the float
computation whenever `maxRenders > 0`). -/
def tRatio (updateCount maxRenders : Nat) : ℚ :=
  min ((updateCount : ℚ) / (maxRenders : ℚ)) 1

/-- The color computed in `paintOutlineGL`:
`Math.round(START_COLOR.c + t * (END_COLOR.c - START_COLOR.c))`
per channel. -/
def lerpColor (t : ℚ) : Color :=
  { r := jsRound ((START_COLOR.r : ℚ) + t * ((END_COLOR.r : ℚ) - (START_COLOR.r : ℚ)))
    g := jsRound ((START_COLOR.g : ℚ) + t * ((END_COLOR.g : ℚ) - (START_COLOR.g : ℚ)))
    b := jsRound ((START_COLOR.b : ℚ) + t * ((END_COLOR.b : ℚ) - (START_COLOR.b : ℚ))) }

/-! ## Pending-region merger (`mergeOutlines`) -/

/-- One step of the `mergeOutlines` loop: insert `outline` into the
insertion-ordered map of merged outlines.  If an entry with the same
geometry key exists, its render list is extended in place
(`existingOutline.renders.push(...outline.renders)`); otherwise the
outline is appended (`mergedOutlines.set(key, outline)`). -/
def mergeInto (acc : List PendingOutline) (outline : PendingOutline) :
    List PendingOutline :=
  match acc with
  | [] => [outline]
  | existing :: rest =>
    if getOutlineKey existing = getOutlineKey outline then
      { existing with renders := existing.renders ++ outline.renders } :: rest
    else
      existing :: mergeInto rest outline

/-- The merger `mergeOutlines`: group the batch by `getOutlineKey`, concatenating the
render lists of outlines that share a key, preserving first-occurrence
order (a JS `Map` iterates in insertion order). -/
def mergeOutlines (outlines : List PendingOutline) : List PendingOutline :=
  outlines.foldl mergeInto []

/-- Total number of render events carried by outlines with geometry key `k`. -/
def rendersForKey (k : String) (l : List PendingOutline) : Nat :=
  ((l.filter (fun o => getOutlineKey o = k)).map (fun o => o.renders.length)).sum

/-! ## Geometry snapshot cache (`getRect`) -/

/-- A geometry cache entry: `{ rect, timestamp }`. -/
structure RectEntry where
  rect : DOMRect
  timestamp : Int
deriving Repr, DecidableEq

/-- The `rectCache` map, keyed by DOM node handle, in insertion order. -/
abbrev RectCache := List (Nat × RectEntry)

def cacheLookup (c : RectCache) (node : Nat) : Option RectEntry :=
  (c.find? (fun p => p.1 = node)).map (fun p => p.2)

/-- JS `Map.set`: overwrite the existing entry in place, else append. -/
def cacheSet (c : RectCache) (node : Nat) (e : RectEntry) : RectCache :=
  match c with
  | [] => [(node, e)]
  | p :: rest =>
    if p.1 = node then (node, e) :: rest else p :: cacheSet rest node e

/-- Computed style of an element: the three properties `getRect` reads. -/
structure Style where
  display : String
  visibility : String
  opacity : String
deriving Repr, DecidableEq

/-- The ambient browser/DOM environment together with the two helper
functions `outline.ts` imports from outside the analysed sources. -/
structure Env where
  /-- Current `performance.now()` (integral milliseconds). -/
  now : Int
  /-- Result of `window.getComputedStyle`. -/
  style : Nat → Style
  /-- Result of `getBoundingClientRect`. -/
  boundingRect : Nat → DOMRect
  innerWidth : Int
  innerHeight : Int
  /-- Configured `options.maxRenders` (`undefined` modelled as `none`; code applies `?? 100`). -/
  maxRenders : Option Nat
  /-- Modelled from the spec: `isOutlineUnstable` (imported from `./utils`,
  not among the analysed sources) is a pure stability classification of an
  outline's render list. -/
  isOutlineUnstable : PendingOutline → Bool
  /-- Modelled from the spec: `getLabelText` (imported from `../utils`, not
  among the analysed sources) is a pure labelling function of the render
  list, returning `string | null`. -/
  getLabelText : List Render → Option String
  /-- Width `ctx.measureText(text).width`, rounded up (`Math.ceil`). -/
  measureTextWidth : String → Nat

/-- The live-layout path of `getRect` (everything after the cache check):
style filter, bounding rect, visibility margin and zero-size filter; on
success the rect is cached with the current timestamp. -/
def computeRect (env : Env) (c : RectCache) (node : Nat) :
    Option DOMRect × RectCache :=
  let style := env.style node
  if style.display = "none" ∨ style.visibility = "hidden" ∨ style.opacity = "0" then
    (none, c)
  else
    let rect := env.boundingRect node
    let isVisible :=
      rect.top ≥ -30 ∧ rect.left ≥ 0 ∧
        rect.bottom ≤ env.innerHeight + 30 ∧ rect.right ≤ env.innerWidth + 30
    if ¬isVisible ∨ rect.width = 0 ∨ rect.height = 0 then
      (none, c)
    else
      (some rect, cacheSet c node { rect := rect, timestamp := env.now })

/-- The cache front end `getRect`: serve a cached entry while
`cached.timestamp > performance.now() - 128`, otherwise read live layout. -/
def getRect (env : Env) (c : RectCache) (node : Nat) :
    Option DOMRect × RectCache :=
  match cacheLookup c node with
  | some cached =>
    if cached.timestamp > env.now - 128 then (some cached.rect, c)
    else computeRect env c node
  | none => computeRect env c node

/-! ## Label texture cache (`createTextTexture`) -/

/-- A `TextureInfo` record `\x7b texture, useCount, width, height \x7d`.  The GPU texture
handle is a numeric id into the engine's `allocatedTextures` ledger. -/
structure TextureInfo where
  texture : Nat
  useCount : Nat
  width : Nat
  height : Nat
deriving Repr, DecidableEq

/-- The `textureCache` map.  Its JS keys are the `text` values passed to
`createTextTexture`, which at the call sites have type `string | null`
(a `null` key is a legitimate `Map` key), hence `Option String`. -/
abbrev TextureCache := List (Option String × TextureInfo)

def texLookup (c : TextureCache) (t : Option String) : Option TextureInfo :=
  (c.find? (fun p => p.1 = t)).map (fun p => p.2)

def texSet (c : TextureCache) (t : Option String) (info : TextureInfo) :
    TextureCache :=
  match c with
  | [] => [(t, info)]
  | p :: rest =>
    if p.1 = t then (t, info) :: rest else p :: texSet rest t info

/-- The string a `null` label coerces to inside `ctx.measureText`. -/
def labelString (t : Option String) : String :=
  match t with
  | some s => s
  | none => "null"

/-! ## Active-region registry and engine state -/

/-- An `ActiveOutline`: the animated lifecycle record of one highlighted
region.  `resolveId` is the id of the promise whose `resolve` closure the
record stores. -/
structure ActiveOutline where
  outline : PendingOutline
  alpha : ℚ
  frame : Nat
  totalFrames : Nat
  resolveId : Nat
  text : Option String
  color : Color
deriving Repr, DecidableEq

/-- The suspended tail of one `flushOutlinesGL` call: the code after
`await Promise.all(...)` runs only once every promise in `waitingOn` has
been resolved; it would then re-flush passing `paintedKeys` as
`newPreviousOutlines`. -/
structure FlushCont where
  waitingOn : List Nat
  paintedKeys : List String
deriving Repr, DecidableEq

/-- The module-level mutable state of `outline.ts` (plus the bookkeeping
ledgers `allocatedTextures`, `firedResolves`, `onPaintFinishCount` and
`pendingFlushes` that make GPU allocation, promise resolution and
suspended flush continuations observable). -/
structure EngineState where
  scheduledOutlines : List PendingOutline
  activeOutlines : List ActiveOutline
  componentUpdateMap : List (String × Nat)
  rectCache : RectCache
  textureCache : TextureCache
  /-- GPU texture ids currently allocated (`gl.createTexture` adds,
  `gl.deleteTexture` removes). -/
  allocatedTextures : List Nat
  nextTextureId : Nat
  nextPromiseId : Nat
  /-- Ids of promises whose stored `resolve` callback has been invoked. -/
  firedResolves : List Nat
  /-- Number of `options.onPaintFinish` invocations. -/
  onPaintFinishCount : Nat
  /-- Whether `animationFrameId` is non-null. -/
  animationFrameRequested : Bool
  pendingFlushes : List FlushCont
deriving Repr, DecidableEq

def initState : EngineState :=
  { scheduledOutlines := [], activeOutlines := [], componentUpdateMap := []
    rectCache := [], textureCache := [], allocatedTextures := []
    nextTextureId := 0, nextPromiseId := 0, firedResolves := []
    onPaintFinishCount := 0, animationFrameRequested := false
    pendingFlushes := [] }

def mapLookup (m : List (String × Nat)) (k : String) : Option Nat :=
  (m.find? (fun p => p.1 = k)).map (fun p => p.2)

def mapSet (m : List (String × Nat)) (k : String) (v : Nat) :
    List (String × Nat) :=
  match m with
  | [] => [(k, v)]
  | p :: rest =>
    if p.1 = k then (k, v) :: rest else p :: mapSet rest k v

/-- The acquire path `createTextTexture(gl, text, fontSize)`: on a cache hit increment
`useCount` and return the entry; otherwise rasterize (`width` from
`Math.ceil(ctx.measureText(text).width)`, `height = fontSize * 1.5`),
allocate a fresh GPU texture and store the entry with `useCount = 1`. -/
def createTextTexture (env : Env) (s : EngineState) (text : Option String)
    (fontSize : Nat) : TextureInfo × EngineState :=
  match texLookup s.textureCache text with
  | some info =>
    let info' := { info with useCount := info.useCount + 1 }
    (info', { s with textureCache := texSet s.textureCache text info' })
  | none =>
    let width := env.measureTextWidth (labelString text)
    let height := fontSize * 3 / 2
    let tex := s.nextTextureId
    let info : TextureInfo :=
      { texture := tex, useCount := 1, width := width, height := height }
    (info,
      { s with
        textureCache := texSet s.textureCache text info
        allocatedTextures := s.allocatedTextures ++ [tex]
        nextTextureId := tex + 1 })

/-- The refresh branch of `paintOutlineGL`: mutate the first registry entry
whose key matches — append the new render events, take over the new rect,
reset `frame` to 0 and overwrite `totalFrames`, `alpha` and `color`. -/
def refreshFirst (l : List ActiveOutline) (key : String)
    (outline : PendingOutline) (totalFrames : Nat) (alpha : ℚ)
    (color : Color) : List ActiveOutline :=
  match l with
  | [] => []
  | a :: rest =>
    if getOutlineKey a.outline = key then
      { a with
        outline :=
          { a.outline with
            renders := a.outline.renders ++ outline.renders
            rect := outline.rect }
        frame := 0, totalFrames := totalFrames, alpha := alpha
        color := color } :: rest
    else a :: refreshFirst rest key outline totalFrames alpha color

/-- The paint operation `paintOutlineGL`: classify the outline, bump the per-key update
counter, derive the gradient color, then either refresh the existing
registry entry for the key or push a fresh `ActiveOutline` whose
`resolveId` is the id of the returned promise (the refresh branch creates
a promise too, but stores its resolver nowhere).  Finally request an
animation frame if none is pending.  Returns the promise id. -/
def paintOutlineGL (env : Env) (s : EngineState) (outline : PendingOutline) :
    Nat × EngineState :=
  let promiseId := s.nextPromiseId
  let s0 := { s with nextPromiseId := promiseId + 1 }
  let unstable := env.isOutlineUnstable outline
  let totalFrames := if unstable then 60 else 30
  let alpha : ℚ := 1
  let key := getOutlineKey outline
  let existing := s0.activeOutlines.find? (fun a => getOutlineKey a.outline = key)
  let currentCount := (mapLookup s0.componentUpdateMap key).getD 0
  let cum := mapSet s0.componentUpdateMap key (currentCount + 1)
  let maxRenders := env.maxRenders.getD 100
  let updateCount := (mapLookup cum key).getD 0
  let t := tRatio updateCount maxRenders
  let color := lerpColor t
  let newActives :=
    match existing with
    | some _ =>
      refreshFirst s0.activeOutlines key outline totalFrames alpha color
    | none =>
      s0.activeOutlines ++
        [({ outline := outline, alpha := alpha, frame := 0
            totalFrames := totalFrames, resolveId := promiseId
            text := env.getLabelText outline.renders
            color := color } : ActiveOutline)]
  (promiseId,
    { s0 with
      componentUpdateMap := cum
      activeOutlines := newActives
      animationFrameRequested := true })

/-- One iteration of the `assembleOutlinesDrawArraysInstanced` loop: create
and cache the label texture for an uncached unstable outline, refresh the
rect from `getRect` (keeping the old one when it returns null), recompute
`alpha` from the pre-increment frame, and increment `frame`. -/
def assembleOne (env : Env) (s : EngineState) (a : ActiveOutline) :
    ActiveOutline × EngineState :=
  let unstable := env.isOutlineUnstable a.outline
  let s1 :=
    if (texLookup s.textureCache a.text).isNone ∧ unstable then
      (createTextTexture env s a.text 48).2
    else s
  let gr := getRect env s1.rectCache a.outline.domNode
  let s2 := { s1 with rectCache := gr.2 }
  let newRect :=
    match gr.1 with
    | some r => r
    | none => a.outline.rect
  let alphaScalar : ℚ := if unstable then 1 else 1/5
  let a2 :=
    { a with
      outline := { a.outline with rect := newRect }
      alpha := alphaScalar * (1 - (a.frame : ℚ) / (a.totalFrames : ℚ))
      frame := a.frame + 1 }
  (a2, s2)

/-- The full `assembleOutlinesDrawArraysInstanced` traversal over the
registry, threading the caches left to right. -/
def assembleGo (env : Env) :
    List ActiveOutline → EngineState → List ActiveOutline × EngineState
  | [], s => ([], s)
  | a :: rest, s =>
    let res := assembleOne env s a
    let res2 := assembleGo env rest res.2
    (res.1 :: res2.1, res2.2)

/-- The expiry sweep at the end of `fadeOutOutlineGL`: splice out every
entry with `frame > totalFrames` (reverse-index splicing removes exactly
the matching entries and keeps the rest in order). -/
def cleanupExpired : List ActiveOutline → List ActiveOutline
  | [] => []
  | a :: rest =>
    if a.frame > a.totalFrames then cleanupExpired rest
    else a :: cleanupExpired rest

/-- GPU textures the idle sweep deletes: `textureCache.forEach` decrements
entries with `useCount > 1` (and leaves their GPU textures allocated) and
calls `gl.deleteTexture` on the rest; afterwards the cache map is cleared
wholesale. -/
def sweptTextures (cache : TextureCache) : List Nat :=
  (cache.filter (fun p => !(p.2.useCount > 1 : Bool))).map (fun p => p.2.texture)

/-- The per-frame tick `fadeOutOutlineGL`.  On an empty registry: stop the
animation loop, clear the update counters and the geometry cache, sweep
and clear the texture cache, and do not request another frame.  Otherwise:
assemble the instanced draw (incrementing every frame counter), splice out
expired entries, and request the next frame. -/
def fadeOutOutlineGL (env : Env) (s : EngineState) : EngineState :=
  if s.activeOutlines.isEmpty then
    { s with
      animationFrameRequested := false
      componentUpdateMap := []
      rectCache := []
      allocatedTextures :=
        s.allocatedTextures.filter
          (fun t => !((sweptTextures s.textureCache).contains t))
      textureCache := [] }
  else
    let res := assembleGo env s.activeOutlines s
    { res.2 with
      activeOutlines := cleanupExpired res.1
      animationFrameRequested := true }

/-- The scheduled-outline half of `recalcOutlines`: iterate from the last
index downwards, refreshing each rect via `getRect` and splicing out
entries whose rect is gone. -/
def recalcScheduledGo (env : Env) :
    List PendingOutline → RectCache → List PendingOutline × RectCache
  | [], c => ([], c)
  | o :: rest, c =>
    let res := recalcScheduledGo env rest c
    let gr := getRect env res.2 o.domNode
    match gr.1 with
    | none => (res.1, gr.2)
    | some r => ({ o with rect := r } :: res.1, gr.2)

/-- The active-outline half of `recalcOutlines`: same reverse traversal;
a vanished rect splices the entry out of the registry (without invoking
its stored `resolve`). -/
def recalcActiveGo (env : Env) :
    List ActiveOutline → RectCache → List ActiveOutline × RectCache
  | [], c => ([], c)
  | a :: rest, c =>
    let res := recalcActiveGo env rest c
    let gr := getRect env res.2 a.outline.domNode
    match gr.1 with
    | none => (res.1, gr.2)
    | some r =>
      ({ a with outline := { a.outline with rect := r } } :: res.1, gr.2)

/-- The body of the throttled `recalcOutlines` (the throttle wrapper only
limits call frequency). -/
def recalcOutlines (env : Env) (s : EngineState) : EngineState :=
  let rs := recalcScheduledGo env s.scheduledOutlines s.rectCache
  let ra := recalcActiveGo env s.activeOutlines rs.2
  { s with
    scheduledOutlines := rs.1
    activeOutlines := ra.1
    rectCache := ra.2 }

/-- The `Promise.all(mergedOutlines.map(...))` body of `flushOutlinesGL`:
each mapped arrow function synchronously computes the key and, when it is
not in `previousOutlines`, synchronously runs the `paintOutlineGL`
executor and then suspends on its promise.  Returns the final state, the
promise ids suspended on, and the keys painted (the ones the continuation
would pass on as `newPreviousOutlines`). -/
def paintBatch (env : Env) :
    List PendingOutline → List String → EngineState →
      EngineState × List Nat × List String
  | [], _, s => (s, [], [])
  | o :: rest, previousKeys, s =>
    let key := getOutlineKey o
    if previousKeys.contains key then
      paintBatch env rest previousKeys s
    else
      let pr := paintOutlineGL env s o
      let res := paintBatch env rest previousKeys pr.2
      (res.1, pr.1 :: res.2.1, key :: res.2.2)

/-- One call to `flushOutlinesGL`: bail out on an empty queue; otherwise
swap the queue out, run the async body synchronously up to its first
`await` — which re-swaps the (since single-threaded, necessarily still
empty) queue, merges, and paints every merged outline whose key is not in
`previousOutlines` — and leave the rest of the body suspended as a
`FlushCont` waiting on the painted outlines' promises.
(`secondOutlines` is an array and hence truthy in JS even when empty, so
the merge always runs.) -/
def flushOutlinesGLStep (env : Env) (s : EngineState)
    (previousKeys : List String) : EngineState :=
  if s.scheduledOutlines.isEmpty then s
  else
    let firstOutlines := s.scheduledOutlines
    let s1 := { s with scheduledOutlines := [] }
    let secondOutlines := s1.scheduledOutlines
    let s2 := { s1 with scheduledOutlines := [] }
    let mergedOutlines := mergeOutlines (firstOutlines ++ secondOutlines)
    let res := paintBatch env mergedOutlines previousKeys s2
    { res.1 with
      pendingFlushes :=
        res.1.pendingFlushes ++
          [{ waitingOn := res.2.1, paintedKeys := res.2.2 }] }

/-- Resuming a suspended flush continuation (only legal once all awaited
promises have resolved): drop it from the pending list, then — mirroring
`if (ReactScanInternals.scheduledOutlines.length) flushOutlinesGL(...)` —
re-flush with the painted keys as `previousOutlines`. -/
def flushContinueStep (env : Env) (s : EngineState) (i : Nat)
    (c : FlushCont) : EngineState :=
  let s1 := { s with pendingFlushes := s.pendingFlushes.eraseIdx i }
  if s1.scheduledOutlines.isEmpty then s1
  else flushOutlinesGLStep env s1 c.paintedKeys

/-- The events that drive the engine: a producer scheduling a batch of
resolved outlines, an external `flushOutlinesGL` call, an animation-frame
tick, a throttled recalculation firing, or a suspended flush continuation
resuming (possible only when everything it awaits has resolved). -/
inductive Step (env : Env) : EngineState → EngineState → Prop
  | schedule (s : EngineState) (batch : List PendingOutline) :
      Step env s { s with scheduledOutlines := s.scheduledOutlines ++ batch }
  | flush (s : EngineState) :
      Step env s (flushOutlinesGLStep env s [])
  | tick (s : EngineState) :
      Step env s (fadeOutOutlineGL env s)
  | recalc (s : EngineState) :
      Step env s (recalcOutlines env s)
  | flushContinue (s : EngineState) (i : Nat) (c : FlushCont)
      (hc : s.pendingFlushes.get? i = some c)
      (henabled : ∀ pid ∈ c.waitingOn, pid ∈ s.firedResolves) :
      Step env s (flushContinueStep env s i c)

/-- Reachability along engine steps (the environment may change between
steps: time passes, layout moves). -/
def Reach (s s' : EngineState) : Prop :=
  Relation.ReflTransGen (fun a b => ∃ env, Step env a b) s s'

/-! ## Views and concrete fixtures used by the theorems below -/

/-- The lifecycle-relevant projection of an `ActiveOutline`:
(promise id of the stored resolve, frame, totalFrames). -/
def frameView (a : ActiveOutline) : Nat × Nat × Nat :=
  (a.resolveId, a.frame, a.totalFrames)

def renderA : Render := { name := "A", count := 1, time := 1 }
def renderB : Render := { name := "B", count := 2, time := 3 }

/-- A rect at the viewport origin; its geometry key is `0-0-10-10`. -/
def rect0 : DOMRect := { x := 0, y := 0, width := 10, height := 10 }

/-- A second, distinct rect; its geometry key is `5-5-20-10`. -/
def rect1 : DOMRect := { x := 5, y := 5, width := 20, height := 10 }

def outlineA : PendingOutline := { rect := rect0, domNode := 1, renders := [renderA] }

/-- Same geometry key as `outlineA`, different node and renders. -/
def outlineA2 : PendingOutline :=
  { rect := rect0, domNode := 2, renders := [renderA, renderB] }

def outlineB : PendingOutline := { rect := rect1, domNode := 3, renders := [renderB] }

/-- A benign browser environment: every element visible, every bounding
rect `rect0`, a large viewport, default options, the stable
classification. -/
def envStd : Env :=
  { now := 0
    style := fun _ => { display := "block", visibility := "visible", opacity := "1" }
    boundingRect := fun _ => rect0
    innerWidth := 1024, innerHeight := 768
    maxRenders := none
    isOutlineUnstable := fun _ => false
    getLabelText := fun _ => none
    measureTextWidth := fun _ => 10 }

/-- An environment whose element styles are all `display: none`. -/
def envHidden : Env :=
  { envStd with
    now := 100
    style := fun _ => { display := "none", visibility := "visible", opacity := "1" } }

/-- The standard environment observed at time 100. -/
def envT100 : Env := { envStd with now := 100 }

/-- The standard environment observed at time 128. -/
def envT128 : Env := { envStd with now := 128 }

/-- A geometry cache holding a fresh entry for node 5. -/
def rectCached : RectCache := [(5, { rect := rect0, timestamp := 100 })]

/-- An already-expired active region (`frame = totalFrames`, so the next
tick pushes it over the edge). -/
def expiredRegion : ActiveOutline :=
  { outline := outlineA, alpha := 1, frame := 30, totalFrames := 30
    resolveId := 7, text := none, color := START_COLOR }

def c2PreState : EngineState :=
  { initState with
    activeOutlines := [expiredRegion]
    nextPromiseId := 8
    animationFrameRequested := true }

def c2PostState : EngineState := fadeOutOutlineGL envStd c2PreState

/-- The registry state reached by painting `outlineA` and `outlineB`
(distinct geometry keys) and then letting the throttled recalculation
refresh both rects in an environment where both elements now occupy
`rect0`. -/
def c3State : EngineState :=
  recalcOutlines envStd
    (paintOutlineGL envStd (paintOutlineGL envStd initState outlineA).2 outlineB).2

/-- A texture entry with `useCount = 1` holding GPU texture 0. -/
def texInfoOne : TextureInfo := { texture := 0, useCount := 1, width := 10, height := 72 }

/-- A texture entry with `useCount = 2` holding GPU texture 1. -/
def texInfoTwo : TextureInfo := { texture := 1, useCount := 2, width := 12, height := 72 }

/-- An idle engine (empty registry) still holding two label textures, one
referenced once and one referenced twice. -/
def c8PreState : EngineState :=
  { initState with
    textureCache := [(some "labelA", texInfoOne), (some "labelB", texInfoTwo)]
    allocatedTextures := [0, 1]
    nextTextureId := 2
    animationFrameRequested := true }

def c8PostState : EngineState := fadeOutOutlineGL envStd c8PreState

/-- An idle engine holding one cached label texture plus nonempty geometry
cache and intensity counters. -/
def c9PreState : EngineState :=
  { initState with
    textureCache := [(some "labelA", texInfoOne)]
    allocatedTextures := [0]
    nextTextureId := 1
    componentUpdateMap := [("0-0-10-10", 3)]
    rectCache := [(1, { rect := rect0, timestamp := 0 })]
    animationFrameRequested := true }

def c9PostState : EngineState := fadeOutOutlineGL envStd c9PreState

/-- One external `flushOutlinesGL` call on a queue holding `outlineA`. -/
def c1Flush1 : EngineState :=
  flushOutlinesGLStep envStd { initState with scheduledOutlines := [outlineA] } []

/-- A second batch (`outlineB`) arriving while that flush is suspended. -/
def c1MidArrival : EngineState :=
  { c1Flush1 with scheduledOutlines := c1Flush1.scheduledOutlines ++ [outlineB] }

/-- A second external `flushOutlinesGL` call after the mid-flight arrival. -/
def c1Flush2 : EngineState := flushOutlinesGLStep envStd c1MidArrival []

/-- The engine after painting `outlineA` once into the empty registry. -/
def paintedOnce : EngineState := (paintOutlineGL envStd initState outlineA).2

/-- The single registry entry `paintedOnce` holds. -/
def firstPaintedEntry : ActiveOutline :=
  { outline := outlineA, alpha := 1, frame := 0, totalFrames := 30
    resolveId := 0, text := none, color := lerpColor (tRatio 1 100) }

/-! ## Lemmas about the pending-region merger -/

theorem getOutlineKey_set_renders (o : PendingOutline) (rs : List Render) :
    getOutlineKey { o with renders := rs } = getOutlineKey o := rfl

theorem keys_mergeInto (acc : List PendingOutline) (o : PendingOutline) :
    (mergeInto acc o).map getOutlineKey =
      if getOutlineKey o ∈ acc.map getOutlineKey then acc.map getOutlineKey
      else acc.map getOutlineKey ++ [getOutlineKey o] := by
  induction acc with
  | nil => simp [mergeInto]
  | cons a rest ih =>
    by_cases h : getOutlineKey a = getOutlineKey o
    · simp [mergeInto, h, getOutlineKey_set_renders]
    · simp only [mergeInto, if_neg h, List.map_cons, ih, List.mem_cons]
      by_cases hm : getOutlineKey o ∈ rest.map getOutlineKey
      · simp [hm, Ne.symm h]
      · simp [hm, Ne.symm h]

theorem mem_keys_mergeInto (k : String) (acc : List PendingOutline)
    (o : PendingOutline) :
    k ∈ (mergeInto acc o).map getOutlineKey ↔
      k ∈ acc.map getOutlineKey ∨ k = getOutlineKey o := by
  rw [keys_mergeInto]
  by_cases h : getOutlineKey o ∈ acc.map getOutlineKey
  · rw [if_pos h]
    constructor
    · exact fun hk => Or.inl hk
    · rintro (hk | rfl) <;> [exact hk; exact h]
  · rw [if_neg h]
    simp

theorem nodup_keys_mergeInto (acc : List PendingOutline) (o : PendingOutline)
    (h : (acc.map getOutlineKey).Nodup) :
    ((mergeInto acc o).map getOutlineKey).Nodup := by
  rw [keys_mergeInto]
  by_cases hm : getOutlineKey o ∈ acc.map getOutlineKey
  · rw [if_pos hm]
    exact h
  · rw [if_neg hm]
    simp [List.nodup_append, h, hm]

theorem rendersForKey_nil (k : String) : rendersForKey k [] = 0 := rfl

theorem rendersForKey_cons (k : String) (o : PendingOutline)
    (l : List PendingOutline) :
    rendersForKey k (o :: l) =
      (if getOutlineKey o = k then o.renders.length else 0) + rendersForKey k l := by
  by_cases h : getOutlineKey o = k <;> simp [rendersForKey, List.filter_cons, h]

theorem rendersForKey_mergeInto (k : String) (acc : List PendingOutline)
    (o : PendingOutline) :
    rendersForKey k (mergeInto acc o) =
      rendersForKey k acc + (if getOutlineKey o = k then o.renders.length else 0) := by
  induction acc with
  | nil =>
    simp [mergeInto, rendersForKey_cons, rendersForKey_nil, Nat.add_comm]
  | cons a rest ih =>
    by_cases h : getOutlineKey a = getOutlineKey o
    · simp only [mergeInto, if_pos h, rendersForKey_cons, getOutlineKey_set_renders]
      by_cases hk : getOutlineKey a = k
      · simp only [if_pos hk, if_pos (h ▸ hk), List.length_append]
        omega
      · simp only [if_neg hk, if_neg (h ▸ hk)]
        omega
    · simp only [mergeInto, if_neg h, rendersForKey_cons, ih]
      omega

theorem rendersForKey_foldl (k : String) (l acc : List PendingOutline) :
    rendersForKey k (l.foldl mergeInto acc) =
      rendersForKey k acc + rendersForKey k l := by
  induction l generalizing acc with
  | nil => simp [rendersForKey_nil]
  | cons o rest ih =>
    simp only [List.foldl_cons, ih, rendersForKey_mergeInto, rendersForKey_cons]
    omega

theorem nodup_keys_foldl (l acc : List PendingOutline)
    (h : (acc.map getOutlineKey).Nodup) :
    (((l.foldl mergeInto acc)).map getOutlineKey).Nodup := by
  induction l generalizing acc with
  | nil => exact h
  | cons o rest ih => exact ih _ (nodup_keys_mergeInto acc o h)

theorem mem_keys_foldl (k : String) (l acc : List PendingOutline) :
    k ∈ ((l.foldl mergeInto acc)).map getOutlineKey ↔
      k ∈ acc.map getOutlineKey ∨ k ∈ l.map getOutlineKey := by
  induction l generalizing acc with
  | nil => simp
  | cons o rest ih =>
    simp only [List.foldl_cons, ih, mem_keys_mergeInto, List.map_cons,
      List.mem_cons]
    tauto

/-- C4: `mergeOutlines` groups its input by geometry key and yields exactly
one region per distinct key (the output keys are duplicate-free and are
exactly the input keys); per key, the render-event counts sum exactly; in
particular two inputs sharing a key merge — in either order — into a
single region whose render list length is the sum of the two inputs'
lengths. -/
theorem mergeOutlines_groups_by_key :
    (∀ l : List PendingOutline, ((mergeOutlines l).map getOutlineKey).Nodup) ∧
    (∀ (l : List PendingOutline) (k : String),
        k ∈ (mergeOutlines l).map getOutlineKey ↔ k ∈ l.map getOutlineKey) ∧
    (∀ (l : List PendingOutline) (k : String),
        rendersForKey k (mergeOutlines l) = rendersForKey k l) ∧
    (∀ o1 o2 : PendingOutline, getOutlineKey o1 = getOutlineKey o2 →
        (mergeOutlines [o1, o2]).length = 1 ∧
        (mergeOutlines [o2, o1]).length = 1 ∧
        (mergeOutlines [o1, o2]).map (fun o => o.renders.length) =
          [o1.renders.length + o2.renders.length] ∧
        (mergeOutlines [o2, o1]).map (fun o => o.renders.length) =
          [o2.renders.length + o1.renders.length]) := by
  refine ⟨fun l => nodup_keys_foldl l [] (by simp), fun l k => ?_,
    fun l k => ?_, fun o1 o2 h => ?_⟩
  · simpa using mem_keys_foldl k l []
  · simpa [rendersForKey_nil] using rendersForKey_foldl k l []
  · refine ⟨?_, ?_, ?_, ?_⟩ <;>
      simp [mergeOutlines, mergeInto, h]

/-- Witness for C4 at concrete inputs sharing the key `0-0-10-10`. -/
theorem mergeOutlines_groups_by_key_witness :
    (mergeOutlines [outlineA, outlineA2]).length = 1 ∧
    (mergeOutlines [outlineA, outlineA2]).map (fun o => o.renders.length) = [3] := by
  have h := mergeOutlines_groups_by_key.2.2.2 outlineA outlineA2 rfl
  exact ⟨h.1, by simpa [outlineA, outlineA2] using h.2.2.1⟩

/-! ## Lemmas about the geometry snapshot cache -/

theorem cacheLookup_cacheSet_self (c : RectCache) (node : Nat) (e : RectEntry) :
    cacheLookup (cacheSet c node e) node = some e := by
  induction c with
  | nil => simp [cacheSet, cacheLookup]
  | cons p rest ih =>
    by_cases h : p.1 = node
    · simp [cacheSet, if_pos h, cacheLookup]
    · simp only [cacheSet, if_neg h, cacheLookup] at *
      rw [List.find?_cons_of_neg]
      · exact ih
      · simpa using h

theorem computeRect_some {env : Env} {c : RectCache} {node : Nat}
    {r : DOMRect} {c' : RectCache}
    (h : computeRect env c node = (some r, c')) :
    r = env.boundingRect node ∧
      c' = cacheSet c node { rect := r, timestamp := env.now } := by
  simp only [computeRect] at h
  split_ifs at h with h1 h2
  · exact absurd (congrArg Prod.fst h) (by simp)
  · exact absurd (congrArg Prod.fst h) (by simp)
  · simp only [Prod.mk.injEq, Option.some.injEq] at h
    obtain ⟨rfl, rfl⟩ := h
    exact ⟨rfl, rfl⟩

theorem computeRect_none {env : Env} {c : RectCache} {node : Nat}
    (h : (computeRect env c node).1 = none) :
    (computeRect env c node).2 = c := by
  simp only [computeRect] at *
  split_ifs at * <;> simp_all

theorem computeRect_null_cases (env : Env) (c : RectCache) (node : Nat)
    (hnull :
      ((env.style node).display = "none" ∨ (env.style node).visibility = "hidden" ∨
          (env.style node).opacity = "0") ∨
        (env.boundingRect node).width = 0 ∨ (env.boundingRect node).height = 0 ∨
        (env.boundingRect node).right ≤ -30 ∨
        (env.boundingRect node).left ≥ env.innerWidth + 30 ∨
        (env.boundingRect node).bottom ≤ -30 ∨
        (env.boundingRect node).top ≥ env.innerHeight + 30) :
    computeRect env c node = (none, c) := by
  simp only [computeRect]
  split_ifs with h1 h2
  · rfl
  · rfl
  · exfalso
    push_neg at h2
    obtain ⟨⟨ht, hl, hb, hr⟩, hw, hh⟩ := h2
    rcases hnull with hstyle | hw0 | hh0 | h | h | h | h
    · exact h1 hstyle
    · exact hw hw0
    · exact hh hh0
    all_goals
      simp only [DOMRect.top, DOMRect.left, DOMRect.bottom, DOMRect.right]
        at h ht hl hb hr
      omega

theorem getRect_of_lookup_none {env : Env} {c : RectCache} {node : Nat}
    (h : cacheLookup c node = none) :
    getRect env c node = computeRect env c node := by
  unfold getRect
  rw [h]

theorem getRect_of_lookup_some {env : Env} {c : RectCache} {node : Nat}
    {e : RectEntry} (h : cacheLookup c node = some e) :
    getRect env c node =
      if e.timestamp > env.now - 128 then (some e.rect, c)
      else computeRect env c node := by
  unfold getRect
  rw [h]

/-- C5 corrected, counterexample to the claim as stated: node 5 has a
fresh cache entry, its current computed style is `display: none`, and yet
`getRect` returns the cached rect rather than null. -/
theorem getRect_suppressed_cached_cex :
    (envHidden.style 5).display = "none" ∧
      getRect envHidden rectCached 5 = (some rect0, rectCached) :=
  ⟨rfl, rfl⟩

/-- C5 (amended): when no fresh cache entry masks the live layout read,
`getRect` returns null — leaving the cache unchanged — for an element with
suppressed rendering (`display: none`, `visibility: hidden`, opacity
`"0"`), zero width or height, or lying entirely outside the extended
visible viewport margin; and on every call, a cache entry is written only
on successful computation (a null result never changes the cache). -/
theorem getRect_null_never_cached (env : Env) (c : RectCache) (node : Nat) :
    ((∀ e, cacheLookup c node = some e → ¬(e.timestamp > env.now - 128)) →
      (((env.style node).display = "none" ∨ (env.style node).visibility = "hidden" ∨
          (env.style node).opacity = "0") ∨
        (env.boundingRect node).width = 0 ∨ (env.boundingRect node).height = 0 ∨
        (env.boundingRect node).right ≤ -30 ∨
        (env.boundingRect node).left ≥ env.innerWidth + 30 ∨
        (env.boundingRect node).bottom ≤ -30 ∨
        (env.boundingRect node).top ≥ env.innerHeight + 30) →
      getRect env c node = (none, c)) ∧
    ((getRect env c node).1 = none → (getRect env c node).2 = c) := by
  constructor
  · intro hstale hnull
    cases hl : cacheLookup c node with
    | none =>
      rw [getRect_of_lookup_none hl]
      exact computeRect_null_cases env c node hnull
    | some e =>
      rw [getRect_of_lookup_some hl, if_neg (hstale e hl)]
      exact computeRect_null_cases env c node hnull
  · intro hnone
    cases hl : cacheLookup c node with
    | none =>
      rw [getRect_of_lookup_none hl] at hnone ⊢
      exact computeRect_none hnone
    | some e =>
      rw [getRect_of_lookup_some hl] at hnone ⊢
      by_cases hf : e.timestamp > env.now - 128
      · rw [if_pos hf] at hnone
        simp at hnone
      · rw [if_neg hf] at hnone ⊢
        exact computeRect_none hnone

/-- Witness for C5 (amended): an empty cache, a hidden element. -/
theorem getRect_null_never_cached_witness :
    getRect envHidden ([] : RectCache) 5 = (none, []) :=
  (getRect_null_never_cached envHidden [] 5).1
    (fun e he => by simp [cacheLookup] at he)
    (Or.inl (Or.inl rfl))

/-- C6: a second `getRect` call within the TTL window (128ms since the
entry's timestamp) returns the identical cached rect with the cache
unchanged — independent of the current layout — and a call at or after TTL
expiry falls through to the live-layout recomputation `computeRect`. -/
theorem getRect_ttl_cache (env env' : Env) (c : RectCache) (node : Nat)
    (r : DOMRect) (c' : RectCache)
    (hmiss : cacheLookup c node = none)
    (hfst : getRect env c node = (some r, c')) :
    (env'.now - env.now < 128 → getRect env' c' node = (some r, c')) ∧
    (128 ≤ env'.now - env.now → getRect env' c' node = computeRect env' c' node) := by
  have hcompute : computeRect env c node = (some r, c') := by
    rw [getRect, hmiss] at hfst
    exact hfst
  obtain ⟨hr, hc⟩ := computeRect_some hcompute
  have hlook : cacheLookup c' node = some { rect := r, timestamp := env.now } := by
    rw [hc]
    exact cacheLookup_cacheSet_self c node _
  constructor
  · intro hfresh
    rw [getRect_of_lookup_some hlook, if_pos (by omega : env.now > env'.now - 128)]
  · intro hstale
    rw [getRect_of_lookup_some hlook, if_neg (by omega : ¬env.now > env'.now - 128)]

/-- Witness for C6: populate an empty cache at time 0, re-query at times
100 (fresh) and 128 (expired). -/
theorem getRect_ttl_cache_witness :
    (getRect envT100 [(5, { rect := rect0, timestamp := 0 })] 5 =
      (some rect0, [(5, { rect := rect0, timestamp := 0 })])) ∧
    (getRect envT128 [(5, { rect := rect0, timestamp := 0 })] 5 =
      computeRect envT128 [(5, { rect := rect0, timestamp := 0 })] 5) := by
  have h100 := getRect_ttl_cache envStd envT100 [] 5 rect0
    [(5, { rect := rect0, timestamp := 0 })] rfl rfl
  have h128 := getRect_ttl_cache envStd envT128 [] 5 rect0
    [(5, { rect := rect0, timestamp := 0 })] rfl rfl
  exact ⟨h100.1 (by norm_num [envT100, envStd]), h128.2 (by norm_num [envT128, envStd])⟩

/-! ## Lemmas about the color derivation -/

theorem jsRound_mono {q q' : ℚ} (h : q ≤ q') : jsRound q ≤ jsRound q' :=
  Int.floor_le_floor (by linarith)

theorem jsRound_eval {q : ℚ} {z : ℤ} (h1 : (z : ℚ) ≤ q + 1/2)
    (h2 : q + 1/2 < z + 1) : jsRound q = z :=
  Int.floor_eq_iff.mpr ⟨h1, h2⟩

theorem lerpColor_zero : lerpColor 0 = START_COLOR := by
  simp only [lerpColor, START_COLOR, END_COLOR, Color.mk.injEq]
  refine ⟨?_, ?_, ?_⟩ <;> (apply jsRound_eval <;> norm_num)

theorem lerpColor_one : lerpColor 1 = END_COLOR := by
  simp only [lerpColor, START_COLOR, END_COLOR, Color.mk.injEq]
  refine ⟨?_, ?_, ?_⟩ <;> (apply jsRound_eval <;> norm_num)

theorem tRatio_saturates {u m : Nat} (hm : 0 < m) (hum : m ≤ u) :
    tRatio u m = 1 := by
  unfold tRatio
  rw [min_eq_right]
  rw [le_div_iff₀ (by exact_mod_cast hm)]
  exact_mod_cast by simpa using hum

/-- C7: the gradient color function returns exactly the cool anchor
(115, 97, 230) at `t = 0`; the intensity ratio saturates to 1 whenever
`updateCount ≥ maxRenders` (with a positive `maxRenders`) and the function
then returns exactly the hot anchor (185, 49, 115); and between the
anchors every rounded channel is monotone in `t` (red increasing, green
and blue decreasing). -/
theorem lerpColor_anchors_monotone :
    lerpColor 0 = START_COLOR ∧
    START_COLOR = { r := 115, g := 97, b := 230 } ∧
    lerpColor 1 = END_COLOR ∧
    END_COLOR = { r := 185, g := 49, b := 115 } ∧
    (∀ u m : Nat, 0 < m → m ≤ u → tRatio u m = 1) ∧
    (∀ t t' : ℚ, 0 ≤ t → t ≤ t' → t' ≤ 1 →
      (lerpColor t).r ≤ (lerpColor t').r ∧
      (lerpColor t').g ≤ (lerpColor t).g ∧
      (lerpColor t').b ≤ (lerpColor t).b) := by
  refine ⟨lerpColor_zero, rfl, lerpColor_one, rfl,
    fun u m hm hum => tRatio_saturates hm hum, fun t t' h0 h h1 => ?_⟩
  simp only [lerpColor, START_COLOR, END_COLOR]
  refine ⟨jsRound_mono ?_, jsRound_mono ?_, jsRound_mono ?_⟩ <;>
    · push_cast
      nlinarith

/-- Witness for C7: saturation at `updateCount = maxRenders = 100` and
monotonicity between `t = 0` and `t = 1`. -/
theorem lerpColor_anchors_monotone_witness :
    tRatio 100 100 = 1 ∧ (lerpColor 0).r ≤ (lerpColor 1).r :=
  ⟨lerpColor_anchors_monotone.2.2.2.2.1 100 100 (by norm_num) (by norm_num),
    (lerpColor_anchors_monotone.2.2.2.2.2 0 1 (by norm_num) (by norm_num)
      (by norm_num)).1⟩

/-! ## Preservation lemmas for the engine operations:
no operation ever invokes a stored resolve callback or `onPaintFinish`. -/

theorem createTextTexture_obs (env : Env) (s : EngineState) (text : Option String)
    (fs : Nat) :
    (createTextTexture env s text fs).2.firedResolves = s.firedResolves ∧
    (createTextTexture env s text fs).2.onPaintFinishCount = s.onPaintFinishCount ∧
    (createTextTexture env s text fs).2.activeOutlines = s.activeOutlines ∧
    (createTextTexture env s text fs).2.scheduledOutlines = s.scheduledOutlines ∧
    (createTextTexture env s text fs).2.rectCache = s.rectCache ∧
    (createTextTexture env s text fs).2.pendingFlushes = s.pendingFlushes := by
  unfold createTextTexture
  cases texLookup s.textureCache text <;> exact ⟨rfl, rfl, rfl, rfl, rfl, rfl⟩

theorem paintOutlineGL_obs (env : Env) (s : EngineState) (o : PendingOutline) :
    (paintOutlineGL env s o).2.firedResolves = s.firedResolves ∧
    (paintOutlineGL env s o).2.onPaintFinishCount = s.onPaintFinishCount :=
  ⟨rfl, rfl⟩

theorem assembleOne_obs (env : Env) (s : EngineState) (a : ActiveOutline) :
    (assembleOne env s a).2.firedResolves = s.firedResolves ∧
    (assembleOne env s a).2.onPaintFinishCount = s.onPaintFinishCount := by
  unfold assembleOne
  by_cases h : (texLookup s.textureCache a.text).isNone = true ∧
      env.isOutlineUnstable a.outline = true
  · simp only [if_pos h]
    exact ⟨(createTextTexture_obs env s a.text 48).1,
      (createTextTexture_obs env s a.text 48).2.1⟩
  · simp only [if_neg h]
    constructor <;> trivial

theorem assembleGo_obs (env : Env) (l : List ActiveOutline) (s : EngineState) :
    (assembleGo env l s).2.firedResolves = s.firedResolves ∧
    (assembleGo env l s).2.onPaintFinishCount = s.onPaintFinishCount := by
  induction l generalizing s with
  | nil => exact ⟨rfl, rfl⟩
  | cons a rest ih =>
    unfold assembleGo
    refine ⟨?_, ?_⟩
    · rw [(ih (assembleOne env s a).2).1, (assembleOne_obs env s a).1]
    · rw [(ih (assembleOne env s a).2).2, (assembleOne_obs env s a).2]

theorem fadeOutOutlineGL_obs (env : Env) (s : EngineState) :
    (fadeOutOutlineGL env s).firedResolves = s.firedResolves ∧
    (fadeOutOutlineGL env s).onPaintFinishCount = s.onPaintFinishCount := by
  unfold fadeOutOutlineGL
  by_cases h : s.activeOutlines.isEmpty = true
  · simp only [if_pos h]
    constructor <;> trivial
  · simp only [if_neg h]
    exact ⟨(assembleGo_obs env s.activeOutlines s).1,
      (assembleGo_obs env s.activeOutlines s).2⟩

theorem recalcOutlines_obs (env : Env) (s : EngineState) :
    (recalcOutlines env s).firedResolves = s.firedResolves ∧
    (recalcOutlines env s).onPaintFinishCount = s.onPaintFinishCount :=
  ⟨rfl, rfl⟩

theorem paintBatch_obs (env : Env) (l : List PendingOutline)
    (prev : List String) (s : EngineState) :
    (paintBatch env l prev s).1.firedResolves = s.firedResolves ∧
    (paintBatch env l prev s).1.onPaintFinishCount = s.onPaintFinishCount := by
  induction l generalizing s with
  | nil => exact ⟨rfl, rfl⟩
  | cons o rest ih =>
    unfold paintBatch
    by_cases h : prev.contains (getOutlineKey o) = true
    · simp only [if_pos h]
      exact ih s
    · simp only [if_neg h]
      refine ⟨?_, ?_⟩
      · rw [(ih (paintOutlineGL env s o).2).1, (paintOutlineGL_obs env s o).1]
      · rw [(ih (paintOutlineGL env s o).2).2, (paintOutlineGL_obs env s o).2]

theorem flushOutlinesGLStep_obs (env : Env) (s : EngineState)
    (prev : List String) :
    (flushOutlinesGLStep env s prev).firedResolves = s.firedResolves ∧
    (flushOutlinesGLStep env s prev).onPaintFinishCount = s.onPaintFinishCount := by
  unfold flushOutlinesGLStep
  by_cases h : s.scheduledOutlines.isEmpty = true
  · simp only [if_pos h]
    constructor <;> trivial
  · simp only [if_neg h]
    exact paintBatch_obs env _ prev _

theorem flushContinueStep_obs (env : Env) (s : EngineState) (i : Nat)
    (c : FlushCont) :
    (flushContinueStep env s i c).firedResolves = s.firedResolves ∧
    (flushContinueStep env s i c).onPaintFinishCount = s.onPaintFinishCount := by
  unfold flushContinueStep
  by_cases h :
      ({ s with pendingFlushes := s.pendingFlushes.eraseIdx i } :
        EngineState).scheduledOutlines.isEmpty = true
  · simp only [if_pos h]
    constructor <;> trivial
  · simp only [if_neg h]
    exact flushOutlinesGLStep_obs env _ c.paintedKeys

theorem step_obs {env : Env} {s s' : EngineState} (h : Step env s s') :
    s'.firedResolves = s.firedResolves ∧
    s'.onPaintFinishCount = s.onPaintFinishCount := by
  cases h with
  | schedule batch => exact ⟨rfl, rfl⟩
  | flush => exact flushOutlinesGLStep_obs env s []
  | tick => exact fadeOutOutlineGL_obs env s
  | recalc => exact recalcOutlines_obs env s
  | flushContinue i c hc henabled => exact flushContinueStep_obs env s i c

theorem reach_obs {s s' : EngineState} (h : Reach s s') :
    s'.firedResolves = s.firedResolves ∧
    s'.onPaintFinishCount = s.onPaintFinishCount := by
  induction h with
  | refl => exact ⟨rfl, rfl⟩
  | tail hsteps hstep ih =>
    obtain ⟨env, hstep⟩ := hstep
    obtain ⟨h1, h2⟩ := step_obs hstep
    exact ⟨h1.trans ih.1, h2.trans ih.2⟩

/-! ## Characterizing the paint operation and the tick -/

theorem mapLookup_mapSet_self (m : List (String × Nat)) (k : String) (v : Nat) :
    mapLookup (mapSet m k v) k = some v := by
  induction m with
  | nil => simp [mapSet, mapLookup]
  | cons p rest ih =>
    by_cases h : p.1 = k
    · simp [mapSet, if_pos h, mapLookup]
    · simp only [mapSet, if_neg h, mapLookup] at *
      rw [List.find?_cons_of_neg]
      · exact ih
      · simpa using h

theorem refreshFirst_map_resolveId (l : List ActiveOutline) (key : String)
    (o : PendingOutline) (tf : Nat) (al : ℚ) (col : Color) :
    (refreshFirst l key o tf al col).map (fun a => a.resolveId) =
      l.map (fun a => a.resolveId) := by
  induction l with
  | nil => rfl
  | cons a rest ih =>
    unfold refreshFirst
    by_cases h : getOutlineKey a.outline = key
    · simp only [if_pos h, List.map_cons]
    · simp only [if_neg h, List.map_cons, ih]

theorem paintOutlineGL_activeOutlines_refresh (env : Env) (s : EngineState)
    (o : PendingOutline) (a : ActiveOutline)
    (h : s.activeOutlines.find?
      (fun x => getOutlineKey x.outline = getOutlineKey o) = some a) :
    (paintOutlineGL env s o).2.activeOutlines =
      refreshFirst s.activeOutlines (getOutlineKey o) o
        (if env.isOutlineUnstable o then 60 else 30) 1
        (lerpColor (tRatio
          ((mapLookup s.componentUpdateMap (getOutlineKey o)).getD 0 + 1)
          (env.maxRenders.getD 100))) := by
  simp only [paintOutlineGL]
  rw [h]
  simp [mapLookup_mapSet_self]

theorem paintOutlineGL_activeOutlines_new (env : Env) (s : EngineState)
    (o : PendingOutline)
    (h : s.activeOutlines.find?
      (fun x => getOutlineKey x.outline = getOutlineKey o) = none) :
    (paintOutlineGL env s o).2.activeOutlines =
      s.activeOutlines ++
        [({ outline := o, alpha := 1, frame := 0
            totalFrames := if env.isOutlineUnstable o then 60 else 30
            resolveId := s.nextPromiseId
            text := env.getLabelText o.renders
            color := lerpColor (tRatio
              ((mapLookup s.componentUpdateMap (getOutlineKey o)).getD 0 + 1)
              (env.maxRenders.getD 100)) } : ActiveOutline)] := by
  simp only [paintOutlineGL]
  rw [h]
  simp [mapLookup_mapSet_self]

theorem assembleOne_frameView (env : Env) (s : EngineState) (a : ActiveOutline) :
    frameView (assembleOne env s a).1 = (a.resolveId, a.frame + 1, a.totalFrames) :=
  rfl

theorem assembleGo_map_frameView (env : Env) (l : List ActiveOutline)
    (s : EngineState) :
    (assembleGo env l s).1.map frameView =
      l.map (fun a => (a.resolveId, a.frame + 1, a.totalFrames)) := by
  induction l generalizing s with
  | nil => rfl
  | cons a rest ih =>
    unfold assembleGo
    simp only [List.map_cons]
    rw [assembleOne_frameView, ih]

theorem cleanupExpired_map_frameView (l : List ActiveOutline) :
    (cleanupExpired l).map frameView =
      (l.map frameView).filter (fun p => decide (p.2.1 ≤ p.2.2)) := by
  induction l with
  | nil => rfl
  | cons a rest ih =>
    unfold cleanupExpired
    by_cases h : a.frame > a.totalFrames
    · have h' : ¬(a.frame ≤ a.totalFrames) := by omega
      rw [if_pos h, ih]
      simp [List.filter_cons, frameView, h']
    · have h' : a.frame ≤ a.totalFrames := by omega
      rw [if_neg h]
      simp [List.filter_cons, frameView, h', ih]

theorem fadeOut_frames (env : Env) (s : EngineState)
    (h : s.activeOutlines ≠ []) :
    (fadeOutOutlineGL env s).activeOutlines.map frameView =
      (s.activeOutlines.map fun a => (a.resolveId, a.frame + 1, a.totalFrames)).filter
        (fun p => decide (p.2.1 ≤ p.2.2)) := by
  unfold fadeOutOutlineGL
  rw [if_neg (by simpa [List.isEmpty_iff] using h)]
  show (cleanupExpired (assembleGo env s.activeOutlines s).1).map frameView = _
  rw [cleanupExpired_map_frameView, assembleGo_map_frameView]

theorem mem_tick_iff (env : Env) (s : EngineState) (a : ActiveOutline)
    (h : s.activeOutlines ≠ []) (ha : a ∈ s.activeOutlines) :
    ((a.resolveId, a.frame + 1, a.totalFrames) ∈
        (fadeOutOutlineGL env s).activeOutlines.map frameView ↔
      a.frame + 1 ≤ a.totalFrames) := by
  rw [fadeOut_frames env s h]
  constructor
  · intro hmem
    have := (List.mem_filter.mp hmem).2
    simpa using this
  · intro hle
    refine List.mem_filter.mpr ⟨?_, by simpa using hle⟩
    exact List.mem_map_of_mem _ ha

/-- C10: the stored resolve callback is never invoked by any code path.
The refresh branch of `paintOutlineGL` stores no resolver (the stored
resolve ids of the registry are unchanged); no engine step (scheduling,
flushing, ticking — including the expiry splice —, recalculation —
including its removal splice —, or a resumed flush continuation) ever
changes the set of fired resolve callbacks or the `onPaintFinish` count;
hence in every state reachable from the initial state no promise returned
by `paintOutlineGL` has settled and `onPaintFinish` has never run. -/
theorem resolve_callbacks_never_fire :
    (∀ env s o a,
        s.activeOutlines.find?
          (fun x => getOutlineKey x.outline = getOutlineKey o) = some a →
        (paintOutlineGL env s o).2.activeOutlines.map (fun x => x.resolveId) =
          s.activeOutlines.map (fun x => x.resolveId)) ∧
    (∀ env s s', Step env s s' →
        s'.firedResolves = s.firedResolves ∧
        s'.onPaintFinishCount = s.onPaintFinishCount) ∧
    (∀ s, Reach initState s →
        s.firedResolves = [] ∧ s.onPaintFinishCount = 0) := by
  refine ⟨fun env s o a h => ?_, fun env s s' h => step_obs h, fun s h => ?_⟩
  · rw [paintOutlineGL_activeOutlines_refresh env s o a h,
      refreshFirst_map_resolveId]
  · exact reach_obs h

/-- Witness for C10 at the initial state. -/
theorem resolve_callbacks_never_fire_witness :
    initState.firedResolves = [] ∧ initState.onPaintFinishCount = 0 :=
  resolve_callbacks_never_fire.2.2 initState Relation.ReflTransGen.refl

/-- C2 corrected, counterexample to the claim as stated: the tick splices
out the expired region (frame 30 = totalFrames, incremented to 31 > 30)
but does not fire its completion callback — the stored resolve (promise
id 7) is never invoked and `onPaintFinish` never runs. -/
theorem frame_lifecycle_cex :
    c2PreState.activeOutlines = [expiredRegion] ∧
    expiredRegion.frame = expiredRegion.totalFrames ∧
    c2PostState.activeOutlines = [] ∧
    c2PostState.firedResolves = [] ∧
    c2PostState.onPaintFinishCount = 0 :=
  ⟨rfl, rfl, rfl, rfl, rfl⟩

/-- C2 (amended): `frame` is 0 when a region is created; each non-idle
tick increments every region's frame by exactly 1 and removes a region
exactly when the incremented frame exceeds its `totalFrames` — so removal
happens on the first tick on which `frame > totalFrames`, never earlier
and never later — but no completion callback fires on removal: the tick
leaves the resolve and `onPaintFinish` ledgers untouched. -/
theorem frame_lifecycle :
    (∀ env s o,
        s.activeOutlines.find?
          (fun x => getOutlineKey x.outline = getOutlineKey o) = none →
        (paintOutlineGL env s o).2.activeOutlines.map frameView =
          s.activeOutlines.map frameView ++
            [(s.nextPromiseId, 0, if env.isOutlineUnstable o then 60 else 30)]) ∧
    (∀ env s, s.activeOutlines ≠ [] →
        (fadeOutOutlineGL env s).activeOutlines.map frameView =
          (s.activeOutlines.map fun a =>
            (a.resolveId, a.frame + 1, a.totalFrames)).filter
              (fun p => decide (p.2.1 ≤ p.2.2))) ∧
    (∀ env s a, s.activeOutlines ≠ [] → a ∈ s.activeOutlines →
        ((a.resolveId, a.frame + 1, a.totalFrames) ∈
            (fadeOutOutlineGL env s).activeOutlines.map frameView ↔
          a.frame + 1 ≤ a.totalFrames)) ∧
    (∀ env s, (fadeOutOutlineGL env s).firedResolves = s.firedResolves ∧
        (fadeOutOutlineGL env s).onPaintFinishCount = s.onPaintFinishCount) := by
  refine ⟨fun env s o h => ?_, fun env s h => fadeOut_frames env s h,
    fun env s a h ha => mem_tick_iff env s a h ha,
    fun env s => fadeOutOutlineGL_obs env s⟩
  rw [paintOutlineGL_activeOutlines_new env s o h]
  simp [frameView]

/-- Witness for C2 (amended) on the expired-region fixture. -/
theorem frame_lifecycle_witness :
    (fadeOutOutlineGL envStd c2PreState).activeOutlines.map frameView =
      (c2PreState.activeOutlines.map fun a =>
        (a.resolveId, a.frame + 1, a.totalFrames)).filter
          (fun p => decide (p.2.1 ≤ p.2.2)) :=
  frame_lifecycle.2.1 envStd c2PreState (by simp [c2PreState, initState])

/-! ## Key distinctness under painting (C3) -/

theorem refreshFirst_map_keys (l : List ActiveOutline) (o : PendingOutline)
    (tf : Nat) (al : ℚ) (col : Color) :
    (refreshFirst l (getOutlineKey o) o tf al col).map
        (fun a => getOutlineKey a.outline) =
      l.map (fun a => getOutlineKey a.outline) := by
  induction l with
  | nil => rfl
  | cons a rest ih =>
    unfold refreshFirst
    by_cases h : getOutlineKey a.outline = getOutlineKey o
    · simp only [if_pos h, List.map_cons]
      congr 1
      exact h.symm
    · simp only [if_neg h, List.map_cons, ih]

theorem refreshFirst_length (l : List ActiveOutline) (key : String)
    (o : PendingOutline) (tf : Nat) (al : ℚ) (col : Color) :
    (refreshFirst l key o tf al col).length = l.length := by
  induction l with
  | nil => rfl
  | cons a rest ih =>
    unfold refreshFirst
    by_cases h : getOutlineKey a.outline = key
    · simp [if_pos h]
    · simp [if_neg h, ih]

theorem find?_key_decomp (l1 : List ActiveOutline) (a : ActiveOutline)
    (l2 : List ActiveOutline) (k : String)
    (hl1 : ∀ b ∈ l1, getOutlineKey b.outline ≠ k)
    (ha : getOutlineKey a.outline = k) :
    (l1 ++ a :: l2).find? (fun x => getOutlineKey x.outline = k) = some a := by
  induction l1 with
  | nil =>
    rw [List.nil_append]
    exact List.find?_cons_of_pos _ (by simp [ha])
  | cons b rest ih =>
    rw [List.cons_append, List.find?_cons_of_neg]
    · exact ih (fun x hx => hl1 x (List.mem_cons_of_mem b hx))
    · simp [hl1 b (List.mem_cons_self b rest)]

theorem refreshFirst_decomp (l1 : List ActiveOutline) (a : ActiveOutline)
    (l2 : List ActiveOutline) (o : PendingOutline) (tf : Nat) (al : ℚ)
    (col : Color)
    (hl1 : ∀ b ∈ l1, getOutlineKey b.outline ≠ getOutlineKey o)
    (ha : getOutlineKey a.outline = getOutlineKey o) :
    refreshFirst (l1 ++ a :: l2) (getOutlineKey o) o tf al col =
      l1 ++ { a with
              outline := { a.outline with
                renders := a.outline.renders ++ o.renders
                rect := o.rect }
              frame := 0, totalFrames := tf, alpha := al
              color := col } :: l2 := by
  induction l1 with
  | nil =>
    rw [List.nil_append, List.nil_append]
    unfold refreshFirst
    rw [if_pos ha]
  | cons b rest ih =>
    rw [List.cons_append]
    unfold refreshFirst
    rw [if_neg (hl1 b (List.mem_cons_self b rest))]
    rw [ih (fun x hx => hl1 x (List.mem_cons_of_mem b hx))]
    rfl

theorem paint_preserves_nodup_keys (env : Env) (s : EngineState)
    (o : PendingOutline)
    (h : (s.activeOutlines.map fun a => getOutlineKey a.outline).Nodup) :
    ((paintOutlineGL env s o).2.activeOutlines.map
      fun a => getOutlineKey a.outline).Nodup := by
  cases hf : s.activeOutlines.find?
      (fun x => getOutlineKey x.outline = getOutlineKey o) with
  | some a =>
    rw [paintOutlineGL_activeOutlines_refresh env s o a hf, refreshFirst_map_keys]
    exact h
  | none =>
    rw [paintOutlineGL_activeOutlines_new env s o hf]
    have hnot : getOutlineKey o ∉
        s.activeOutlines.map (fun a => getOutlineKey a.outline) := by
      intro hmem
      obtain ⟨a, ha, hk⟩ := List.mem_map.mp hmem
      have := List.find?_eq_none.mp hf a ha
      simp [hk] at this
    simp [List.nodup_append, h, hnot]

/-- C3 corrected, counterexample to the claim as stated: after painting
two regions with distinct geometry keys, a throttled recalculation in an
environment where both elements now occupy the same bounding rect rewrites
both stored rects, leaving the registry with two `ActiveRegion`s sharing
the GeometryKey `0-0-10-10`. -/
theorem registry_duplicate_key_cex :
    (c3State.activeOutlines.map fun a => getOutlineKey a.outline) =
      ["0-0-10-10", "0-0-10-10"] ∧
    ¬ (c3State.activeOutlines.map fun a => getOutlineKey a.outline).Nodup := by
  refine ⟨rfl, ?_⟩
  rw [show (c3State.activeOutlines.map fun a => getOutlineKey a.outline) =
    ["0-0-10-10", "0-0-10-10"] from rfl]
  decide

/-- C3 (amended): painting a region whose key already has a registry entry
mutates that (first matching) entry in place — appending the new render
events, taking over the rect, resetting `frame` to 0 and refreshing
`totalFrames`, `alpha` and `color` — without creating a second entry
(the registry length is unchanged), and painting never introduces a
duplicate GeometryKey into a registry whose keys are distinct.  (Geometry
recalculation, by contrast, can collapse two keys, per the
counterexample.) -/
theorem paint_refresh_in_place :
    (∀ env s o l1 a l2,
        s.activeOutlines = l1 ++ a :: l2 →
        (∀ b ∈ l1, getOutlineKey b.outline ≠ getOutlineKey o) →
        getOutlineKey a.outline = getOutlineKey o →
        (paintOutlineGL env s o).2.activeOutlines =
          l1 ++ { a with
                  outline := { a.outline with
                    renders := a.outline.renders ++ o.renders
                    rect := o.rect }
                  frame := 0
                  totalFrames := if env.isOutlineUnstable o then 60 else 30
                  alpha := 1
                  color := lerpColor (tRatio
                    ((mapLookup s.componentUpdateMap (getOutlineKey o)).getD 0 + 1)
                    (env.maxRenders.getD 100)) } :: l2) ∧
    (∀ env s o a,
        s.activeOutlines.find?
          (fun x => getOutlineKey x.outline = getOutlineKey o) = some a →
        (paintOutlineGL env s o).2.activeOutlines.length =
          s.activeOutlines.length) ∧
    (∀ env s o,
        (s.activeOutlines.map fun a => getOutlineKey a.outline).Nodup →
        ((paintOutlineGL env s o).2.activeOutlines.map
          fun a => getOutlineKey a.outline).Nodup) := by
  refine ⟨fun env s o l1 a l2 hs hl1 ha => ?_, fun env s o a hf => ?_,
    fun env s o h => paint_preserves_nodup_keys env s o h⟩
  · have hf : s.activeOutlines.find?
        (fun x => getOutlineKey x.outline = getOutlineKey o) = some a := by
      rw [hs]
      exact find?_key_decomp l1 a l2 _ hl1 ha
    rw [paintOutlineGL_activeOutlines_refresh env s o a hf, hs,
      refreshFirst_decomp l1 a l2 o _ _ _ hl1 ha]
  · rw [paintOutlineGL_activeOutlines_refresh env s o a hf, refreshFirst_length]

/-- Witness for C3 (amended): repainting the key `0-0-10-10` into a
registry already holding it keeps the registry at length 1. -/
theorem paint_refresh_in_place_witness :
    (paintOutlineGL envStd paintedOnce outlineA2).2.activeOutlines.length =
      paintedOnce.activeOutlines.length :=
  paint_refresh_in_place.2.1 envStd paintedOnce outlineA2 firstPaintedEntry rfl

/-! ## The idle tick (C9) and the label texture cache (C8) -/

theorem texLookup_texSet_self (c : TextureCache) (t : Option String)
    (info : TextureInfo) :
    texLookup (texSet c t info) t = some info := by
  induction c with
  | nil => simp [texSet, texLookup]
  | cons p rest ih =>
    by_cases h : p.1 = t
    · simp [texSet, if_pos h, texLookup]
    · simp only [texSet, if_neg h, texLookup] at *
      rw [List.find?_cons_of_neg]
      · exact ih
      · simpa using h

theorem mem_sweptTextures_of_low {cache : TextureCache}
    {p : Option String × TextureInfo} (hp : p ∈ cache)
    (hle : p.2.useCount ≤ 1) :
    p.2.texture ∈ sweptTextures cache := by
  unfold sweptTextures
  refine List.mem_map_of_mem _ (List.mem_filter.mpr ⟨hp, ?_⟩)
  simp only [Bool.not_eq_true', decide_eq_false_iff_not]
  omega

/-- C9 corrected, counterexample to the claim as stated: on the
empty-registry tick the label texture cache IS cleared (and the GPU texture
of the `useCount = 1` entry deleted), contrary to the claim that the
texture cache is left alone. -/
theorem idle_tick_texture_cache_cex :
    c9PreState.activeOutlines = [] ∧
    c9PreState.textureCache = [(some "labelA", texInfoOne)] ∧
    c9PostState.textureCache = [] ∧
    c9PostState.allocatedTextures = [] :=
  ⟨rfl, rfl, rfl, rfl⟩

theorem idle_tick_spec (env : Env) (s : EngineState)
    (h : s.activeOutlines = []) :
    (fadeOutOutlineGL env s).animationFrameRequested = false ∧
    (fadeOutOutlineGL env s).componentUpdateMap = [] ∧
    (fadeOutOutlineGL env s).rectCache = [] ∧
    (fadeOutOutlineGL env s).textureCache = [] ∧
    (∀ t, t ∈ (fadeOutOutlineGL env s).allocatedTextures ↔
        t ∈ s.allocatedTextures ∧ t ∉ sweptTextures s.textureCache) ∧
    (fadeOutOutlineGL env s).scheduledOutlines = s.scheduledOutlines ∧
    (fadeOutOutlineGL env s).activeOutlines = [] := by
  unfold fadeOutOutlineGL
  rw [if_pos (by simp [h])]
  refine ⟨rfl, rfl, rfl, rfl, fun t => ?_, rfl, h⟩
  simp [List.mem_filter]

/-- C9 (amended): on the tick that finds the registry empty, the tick loop
halts (no further frame callback is requested), the geometry snapshot
cache and the update-intensity counters are cleared, and the label texture
cache is cleared as well: its entries with `useCount ≤ 1` have their GPU
textures deleted, while textures of entries with `useCount > 1` stay
allocated (the entry is dropped after a mere decrement). -/
theorem idle_tick_halts_and_clears :
    ∀ env s, s.activeOutlines = [] →
      (fadeOutOutlineGL env s).animationFrameRequested = false ∧
      (fadeOutOutlineGL env s).componentUpdateMap = [] ∧
      (fadeOutOutlineGL env s).rectCache = [] ∧
      (fadeOutOutlineGL env s).textureCache = [] ∧
      (∀ t, t ∈ (fadeOutOutlineGL env s).allocatedTextures ↔
          t ∈ s.allocatedTextures ∧ t ∉ sweptTextures s.textureCache) ∧
      (fadeOutOutlineGL env s).scheduledOutlines = s.scheduledOutlines ∧
      (fadeOutOutlineGL env s).activeOutlines = [] :=
  fun env s h => idle_tick_spec env s h

/-- Witness for C9 (amended) on the idle fixture. -/
theorem idle_tick_halts_and_clears_witness :
    (fadeOutOutlineGL envStd c9PreState).animationFrameRequested = false ∧
    (fadeOutOutlineGL envStd c9PreState).textureCache = [] ∧
    (fadeOutOutlineGL envStd c9PreState).componentUpdateMap = [] :=
  ⟨(idle_tick_halts_and_clears envStd c9PreState rfl).1,
    (idle_tick_halts_and_clears envStd c9PreState rfl).2.2.2.1,
    (idle_tick_halts_and_clears envStd c9PreState rfl).2.1⟩

/-- C8 corrected, counterexample to the claim as stated: the idle sweep
deletes GPU texture 0 while its entry's reference count is still 1 (never
having been decremented to 0), and for the `useCount = 2` entry it leaves
GPU texture 1 allocated while dropping its cache entry — so that texture
can never be deleted, although its count never reached 0. -/
theorem texture_sweep_cex :
    c8PreState.activeOutlines = [] ∧
    texLookup c8PreState.textureCache (some "labelA") = some texInfoOne ∧
    texInfoOne.useCount = 1 ∧
    (0 : Nat) ∈ c8PreState.allocatedTextures ∧
    (0 : Nat) ∉ c8PostState.allocatedTextures ∧
    texInfoTwo.useCount = 2 ∧
    (1 : Nat) ∈ c8PostState.allocatedTextures ∧
    c8PostState.textureCache = [] := by
  refine ⟨rfl, rfl, rfl, ?_, ?_, rfl, ?_, rfl⟩
  · decide
  · rw [show c8PostState.allocatedTextures = [1] from rfl]
    decide
  · rw [show c8PostState.allocatedTextures = [1] from rfl]
    decide

/-- C8 (amended): requesting an existing label's texture increments its
reference count and returns the existing entry without allocating a new
GPU texture; requesting a missing one allocates exactly one texture with
`useCount = 1`.  There is no per-region release: the only release point is
the idle sweep, which deletes the GPU textures precisely of entries with
`useCount ≤ 1` (while the recorded count is still positive), keeps the
GPU textures of higher-count entries allocated, and clears the cache map
wholesale. -/
theorem texture_cache_acquire_and_sweep :
    (∀ env s text fs info,
        texLookup s.textureCache text = some info →
        (createTextTexture env s text fs).1 =
          { info with useCount := info.useCount + 1 } ∧
        (createTextTexture env s text fs).2.allocatedTextures =
          s.allocatedTextures ∧
        (createTextTexture env s text fs).2.nextTextureId = s.nextTextureId ∧
        texLookup (createTextTexture env s text fs).2.textureCache text =
          some { info with useCount := info.useCount + 1 }) ∧
    (∀ env s text fs,
        texLookup s.textureCache text = none →
        (createTextTexture env s text fs).1.useCount = 1 ∧
        (createTextTexture env s text fs).2.allocatedTextures =
          s.allocatedTextures ++ [s.nextTextureId]) ∧
    (∀ env s, s.activeOutlines = [] →
        (fadeOutOutlineGL env s).textureCache = [] ∧
        (∀ p ∈ s.textureCache, p.2.useCount ≤ 1 →
            p.2.texture ∉ (fadeOutOutlineGL env s).allocatedTextures) ∧
        (∀ t ∈ s.allocatedTextures, t ∉ sweptTextures s.textureCache →
            t ∈ (fadeOutOutlineGL env s).allocatedTextures)) := by
  refine ⟨fun env s text fs info h => ?_, fun env s text fs h => ?_,
    fun env s h => ⟨(idle_tick_spec env s h).2.2.2.1,
      fun p hp hle hmem => ?_, fun t ht hsw => ?_⟩⟩
  · unfold createTextTexture
    rw [h]
    exact ⟨rfl, rfl, rfl, texLookup_texSet_self _ _ _⟩
  · unfold createTextTexture
    rw [h]
    exact ⟨rfl, rfl⟩
  · have := ((idle_tick_spec env s h).2.2.2.2.1 p.2.texture).mp hmem
    exact this.2 (mem_sweptTextures_of_low hp hle)
  · exact ((idle_tick_spec env s h).2.2.2.2.1 t).mpr ⟨ht, hsw⟩

/-- Witness for C8 (amended): re-acquiring `labelA` bumps its count to 2
and allocates nothing. -/
theorem texture_cache_acquire_and_sweep_witness :
    (createTextTexture envStd c8PreState (some "labelA") 48).1 =
      { texInfoOne with useCount := texInfoOne.useCount + 1 } ∧
    (createTextTexture envStd c8PreState (some "labelA") 48).2.allocatedTextures =
      c8PreState.allocatedTextures :=
  ⟨(texture_cache_acquire_and_sweep.1 envStd c8PreState (some "labelA") 48
      texInfoOne rfl).1,
    (texture_cache_acquire_and_sweep.1 envStd c8PreState (some "labelA") 48
      texInfoOne rfl).2.1⟩

/-! ## The double-buffered flush (C1) -/

/-- C1 (code bug): the first external flush call on a queue holding
`outlineA` paints it and suspends awaiting promise 0; a second batch
(`outlineB`) arriving mid-flight stays queued.  Because no code path ever
invokes a stored resolve, every state reachable from there still has an
empty fired-resolve ledger, so a suspended flush continuation with a
nonempty wait set — in particular this one — can never become runnable:
the mid-flight batch is never "captured and merged at the end of the same
flush".  Moreover a second external flush call leaves two flushes
simultaneously in flight. -/
theorem flush_continuation_never_runs :
    c1Flush1.pendingFlushes = [{ waitingOn := [0], paintedKeys := ["0-0-10-10"] }] ∧
    c1Flush1.scheduledOutlines = [] ∧
    c1MidArrival.scheduledOutlines = [outlineB] ∧
    (∀ s', Reach c1MidArrival s' → s'.firedResolves = []) ∧
    (∀ s', Reach c1MidArrival s' →
        ∀ c ∈ s'.pendingFlushes, c.waitingOn ≠ [] →
          ¬ ∀ pid ∈ c.waitingOn, pid ∈ s'.firedResolves) ∧
    c1Flush2.pendingFlushes.length = 2 := by
  refine ⟨rfl, rfl, rfl, fun s' h => (reach_obs h).1.trans rfl,
    fun s' h c hc hne hall => ?_, rfl⟩
  have hfired : s'.firedResolves = [] := (reach_obs h).1.trans rfl
  obtain ⟨pid, hpid⟩ := List.exists_mem_of_ne_nil c.waitingOn hne
  have := hall pid hpid
  rw [hfired] at this
  simp at this

/-- Witness for C1 at the mid-arrival state itself. -/
theorem flush_continuation_never_runs_witness :
    c1MidArrival.firedResolves = [] :=
  flush_continuation_never_runs.2.2.2.1 c1MidArrival Relation.ReflTransGen.refl

end ReactScan
